import Mathlib

/-!
Verification development for the lazydata terminal database client.

This file gives a shallow embedding of the program's core: the modal
input resolver (`src/key_maps.rs`), the result table model
(`src/layout/data_table.rs`), and the query-history global state
(`src/state.rs`, `src/crud/executor.rs`), together with theorems that
settle the specification claims about them.

Machine integers (`usize`, `u16`) are modelled as `Nat` with explicit
truncation/saturation where the source can overflow; a Rust subtraction
that can panic on underflow is modelled as an `Option`-returning checked
subtraction.
-/

set_option maxHeartbeats 1600000

namespace LazyData

/-! ## Key and command types (`src/key_maps.rs`, `src/command.rs`) -/

/-- `tui_textarea::Key`: the key of an editor `Input`.  `Null` is the
conversion target for key codes `tui_textarea` does not understand. -/
inductive Key where
  | Null
  | Char (c : Char)
  | Esc
  | Backspace
  | Delete
  | Enter
  | Left
  | Right
  | Up
  | Down
  | Home
  | End
  | PageUp
  | PageDown
  | Tab
  | F (n : Nat)
  deriving DecidableEq, Repr

/-- `tui_textarea::Input`: a key plus its modifier flags.  The resolver in
`key_maps.rs` only ever reads the `key` and `ctrl` fields, so the `alt`
and `shift` flags are omitted from the embedding. -/
structure Input where
  key : Key
  ctrl : Bool
  deriving DecidableEq, Repr

/-- `crossterm::event::KeyCode`, restricted to the codes the key maps
match on. -/
inductive KeyCode where
  | Char (c : Char)
  | F (n : Nat)
  | Tab
  | Esc
  | Backspace
  | Delete
  | Enter
  | Left
  | Right
  | Up
  | Down
  | Home
  | End
  | PageUp
  | PageDown
  | Other
  deriving DecidableEq, Repr

/-- `crossterm::event::KeyEventKind`. -/
inductive KeyEventKind where
  | Press
  | Release
  | Repeat
  deriving DecidableEq, Repr

/-- `crossterm::event::KeyEvent`, restricted to the fields the key maps
read (`code`, `kind`, and the CTRL modifier used by `Input::from`). -/
structure KeyEvent where
  code : KeyCode
  kind : KeyEventKind
  ctrl : Bool
  deriving DecidableEq, Repr

/-- `Input::from(key_event)`: the crossterm → tui_textarea conversion.
Codes without a `Key` counterpart become `Key.Null`. -/
def inputFrom (e : KeyEvent) : Input :=
  { key :=
      match e.code with
      | KeyCode.Char c => Key.Char c
      | KeyCode.F n => Key.F n
      | KeyCode.Tab => Key.Tab
      | KeyCode.Esc => Key.Esc
      | KeyCode.Backspace => Key.Backspace
      | KeyCode.Delete => Key.Delete
      | KeyCode.Enter => Key.Enter
      | KeyCode.Left => Key.Left
      | KeyCode.Right => Key.Right
      | KeyCode.Up => Key.Up
      | KeyCode.Down => Key.Down
      | KeyCode.Home => Key.Home
      | KeyCode.End => Key.End
      | KeyCode.PageUp => Key.PageUp
      | KeyCode.PageDown => Key.PageDown
      | KeyCode.Other => Key.Null,
    ctrl := e.ctrl }

/-- `layout::query_editor::Mode`: the editor's Vim-style mode. -/
inductive Mode where
  | Normal
  | Insert
  | Visual
  | Operator (c : Char)
  deriving DecidableEq, Repr

/-- `tui_textarea::CursorMove`, restricted to the variants the key maps
produce. -/
inductive CursorMove where
  | Back
  | Down
  | Up
  | Forward
  | WordForward
  | WordEnd
  | WordBack
  | Head
  | End
  | Top
  | Bottom
  deriving DecidableEq, Repr

/-- `tui_textarea::Scrolling`, restricted to the variants the key maps
produce. -/
inductive Scrolling where
  | PageUp
  | PageDown
  | HalfPageUp
  | HalfPageDown
  deriving DecidableEq, Repr

/-- `app::Focus`: which panel owns keyboard input. -/
inductive Focus where
  | Sidebar
  | Editor
  | Table
  deriving DecidableEq, Repr

/-- `command::Command`: the closed set of user intents.  `ShowKeyMap`,
`ClosePopup`, `KeyMapScrollUp` and `KeyMapScrollDown` are produced by
`key_maps.rs` and consumed by `app.rs` even though the `command.rs`
snapshot omits them from the enum listing. -/
inductive Command where
  | Quit
  | ToggleFocus
  | ExecuteQuery
  | ShowKeyMap
  | ClosePopup
  | KeyMapScrollUp
  | KeyMapScrollDown
  | DataTablePreviousTab
  | DataTableNextTab
  | DataTableNextRow
  | DataTablePreviousRow
  | DataTableNextHistoryRow
  | DataTablePreviousHistoryRow
  | DataTableScrollRight
  | DataTableScrollLeft
  | DataTableNextColor
  | DataTablePreviousColor
  | DataTableNextPage
  | DataTablePreviousPage
  | DataTableJumpToFirstRow
  | DataTableJumpToLastRow
  | DataTableNextColumn
  | DataTablePreviousColumn
  | DataTableAdjustColumnWidthIncrease
  | DataTableAdjustColumnWidthDecrease
  | DataTableCopySelectedCell
  | DataTableCopySelectedRow
  | DataTableCopyQueryToEditor
  | DataTableRunSelectedHistoryQuery
  | DataTableSetTabIndex (idx : Nat)
  | SidebarToggleSelected
  | SidebarKeyLeft
  | SidebarKeyRight
  | SidebarKeyDown
  | SidebarKeyUp
  | SidebarDeselect
  | SidebarSelectFirst
  | SidebarSelectLast
  | SidebarScrollDown (n : Nat)
  | SidebarScrollUp (n : Nat)
  | EditorInputChar (c : Char)
  | EditorInputBackspace
  | EditorInputDelete
  | EditorInputEnter
  | EditorMoveCursor (m : CursorMove)
  | EditorDeleteLineByEnd
  | EditorCancelSelection
  | EditorPaste
  | EditorUndo
  | EditorRedo
  | EditorDeleteNextChar
  | EditorSetMode (m : Mode)
  | EditorScrollRelative (rows : Int) (cols : Int)
  | EditorScroll (s : Scrolling)
  | EditorStartSelection
  | EditorCopySelection
  | EditorCutSelection
  | EditorPerformPendingOperator
  | NoOp

/-! ## The modal input resolver (`DefaultKeyMapper` in `src/key_maps.rs`) -/

/-- The mutable state of `DefaultKeyMapper`: the editor mode and the
optional buffered pending input. -/
structure ResolverState where
  editorMode : Mode
  editorPendingInput : Option Input
  deriving DecidableEq, Repr

/-- `DefaultKeyMapper::new()`. -/
def ResolverState.new : ResolverState :=
  { editorMode := Mode.Normal, editorPendingInput := none }

/-- The operator character of a pending key, when it is one of
`y`/`d`/`c` (the `Key::Char(op @ ('y' | 'd' | 'c'))` patterns). -/
def opCharOf : Key → Option Char
  | Key.Char c => if c = 'y' ∨ c = 'd' ∨ c = 'c' then some c else none
  | _ => none

/-- The keys accepted as a follow-up motion while an operator char is
buffered (the list in the pending-resolution block of
`map_query_editor_key`). -/
def isPendingMotionKey : Key → Bool
  | Key.Char c =>
      c = 'h' || c = 'j' || c = 'k' || c = 'l' || c = 'w' || c = 'e' || c = 'b'
        || c = '^' || c = '$' || c = 'g' || c = 'G'
  | Key.PageUp => true
  | Key.PageDown => true
  | _ => false

/-- The `Mode::Normal` arm of `map_query_editor_key`.  Guard order of the
Rust `match` is preserved (e.g. `u`/`y`/`d`/`f`/`r` check `ctrl`
first). -/
def normalModeResolve (s : ResolverState) (input : Input) :
    ResolverState × Option Command :=
  match input.key with
  | Key.Char c =>
    if c = 'h' then (s, some (Command.EditorMoveCursor CursorMove.Back))
    else if c = 'j' then (s, some (Command.EditorMoveCursor CursorMove.Down))
    else if c = 'k' then (s, some (Command.EditorMoveCursor CursorMove.Up))
    else if c = 'l' then (s, some (Command.EditorMoveCursor CursorMove.Forward))
    else if c = 'w' then (s, some (Command.EditorMoveCursor CursorMove.WordForward))
    else if c = 'e' then
      if input.ctrl then (s, some (Command.EditorScrollRelative 1 0))
      else (s, some (Command.EditorMoveCursor CursorMove.WordEnd))
    else if c = 'b' then
      if input.ctrl then (s, some (Command.EditorScroll Scrolling.PageUp))
      else (s, some (Command.EditorMoveCursor CursorMove.WordBack))
    else if c = '^' then (s, some (Command.EditorMoveCursor CursorMove.Head))
    else if c = '$' then (s, some (Command.EditorMoveCursor CursorMove.End))
    else if c = 'D' then (s, some Command.EditorDeleteLineByEnd)
    else if c = 'C' then
      ({ s with editorMode := Mode.Insert }, some Command.EditorDeleteLineByEnd)
    else if c = 'p' then (s, some Command.EditorPaste)
    else if c = 'u' then
      if input.ctrl then (s, some (Command.EditorScroll Scrolling.HalfPageUp))
      else (s, some Command.EditorUndo)
    else if c = 'r' then
      if input.ctrl then (s, some Command.EditorRedo)
      else (s, some Command.NoOp)
    else if c = 'x' then (s, some Command.EditorDeleteNextChar)
    else if c = 'i' then
      ({ s with editorMode := Mode.Insert }, some (Command.EditorSetMode Mode.Insert))
    else if c = 'a' then
      ({ s with editorMode := Mode.Insert },
       some (Command.EditorMoveCursor CursorMove.Forward))
    else if c = 'A' then
      ({ s with editorMode := Mode.Insert },
       some (Command.EditorMoveCursor CursorMove.End))
    else if c = 'o' then
      ({ s with editorMode := Mode.Insert }, some Command.EditorInputEnter)
    else if c = 'O' then
      ({ s with editorMode := Mode.Insert }, some Command.EditorInputEnter)
    else if c = 'I' then
      ({ s with editorMode := Mode.Insert },
       some (Command.EditorMoveCursor CursorMove.Head))
    else if c = 'y' then
      if input.ctrl then (s, some (Command.EditorScrollRelative (-1) 0))
      else
        ({ s with editorPendingInput := some input, editorMode := Mode.Operator 'y' },
         some (Command.EditorSetMode (Mode.Operator 'y')))
    else if c = 'd' then
      if input.ctrl then (s, some (Command.EditorScroll Scrolling.HalfPageDown))
      else
        ({ s with editorPendingInput := some input, editorMode := Mode.Operator 'd' },
         some (Command.EditorSetMode (Mode.Operator 'd')))
    else if c = 'f' then
      if input.ctrl then (s, some (Command.EditorScroll Scrolling.PageDown))
      else (s, some Command.NoOp)
    else if c = 'v' then
      ({ s with editorMode := Mode.Visual }, some Command.EditorStartSelection)
    else if c = 'V' then
      ({ s with editorMode := Mode.Visual }, some Command.EditorStartSelection)
    else if c = 'g' then
      ({ s with editorPendingInput := some input }, some Command.NoOp)
    else if c = 'G' then (s, some (Command.EditorMoveCursor CursorMove.Bottom))
    else if c = 'c' then
      ({ s with editorPendingInput := some input, editorMode := Mode.Operator 'c' },
       some (Command.EditorSetMode (Mode.Operator 'c')))
    else (s, some Command.NoOp)
  | _ => (s, some Command.NoOp)

/-- The `Mode::Insert` arm of `map_query_editor_key`. -/
def insertModeResolve (s : ResolverState) (input : Input) :
    ResolverState × Option Command :=
  match input.key with
  | Key.Esc =>
      ({ s with editorMode := Mode.Normal }, some (Command.EditorSetMode Mode.Normal))
  | Key.Backspace => (s, some Command.EditorInputBackspace)
  | Key.Delete => (s, some Command.EditorInputDelete)
  | Key.Enter => (s, some Command.EditorInputEnter)
  | Key.Left => (s, some (Command.EditorMoveCursor CursorMove.Back))
  | Key.Right => (s, some (Command.EditorMoveCursor CursorMove.Forward))
  | Key.Up => (s, some (Command.EditorMoveCursor CursorMove.Up))
  | Key.Down => (s, some (Command.EditorMoveCursor CursorMove.Down))
  | Key.Home => (s, some (Command.EditorMoveCursor CursorMove.Head))
  | Key.End => (s, some (Command.EditorMoveCursor CursorMove.End))
  | Key.PageUp => (s, some (Command.EditorScroll Scrolling.PageUp))
  | Key.PageDown => (s, some (Command.EditorScroll Scrolling.PageDown))
  | Key.Char c =>
      if c = 'c' ∧ input.ctrl then
        ({ s with editorMode := Mode.Normal }, some (Command.EditorSetMode Mode.Normal))
      else (s, some (Command.EditorInputChar c))
  | _ => (s, some Command.NoOp)

/-- The `Mode::Visual` arm of `map_query_editor_key`. -/
def visualModeResolve (s : ResolverState) (input : Input) :
    ResolverState × Option Command :=
  match input.key with
  | Key.Char c =>
    if c = 'h' then (s, some (Command.EditorMoveCursor CursorMove.Back))
    else if c = 'j' then (s, some (Command.EditorMoveCursor CursorMove.Down))
    else if c = 'k' then (s, some (Command.EditorMoveCursor CursorMove.Up))
    else if c = 'l' then (s, some (Command.EditorMoveCursor CursorMove.Forward))
    else if c = 'w' then (s, some (Command.EditorMoveCursor CursorMove.WordForward))
    else if c = 'e' then (s, some (Command.EditorMoveCursor CursorMove.WordEnd))
    else if c = 'b' then (s, some (Command.EditorMoveCursor CursorMove.WordBack))
    else if c = '^' then (s, some (Command.EditorMoveCursor CursorMove.Head))
    else if c = '$' then (s, some (Command.EditorMoveCursor CursorMove.End))
    else if c = 'g' then
      ({ s with editorPendingInput := some input }, some Command.NoOp)
    else if c = 'G' then (s, some (Command.EditorMoveCursor CursorMove.Bottom))
    else if c = 'y' then
      ({ s with editorMode := Mode.Normal }, some Command.EditorCopySelection)
    else if c = 'd' then
      ({ s with editorMode := Mode.Normal }, some Command.EditorCutSelection)
    else if c = 'c' then
      ({ s with editorMode := Mode.Insert }, some Command.EditorCutSelection)
    else if c = 'v' then
      ({ s with editorMode := Mode.Normal }, some Command.EditorCancelSelection)
    else (s, some Command.NoOp)
  | Key.Esc =>
      ({ s with editorMode := Mode.Normal }, some Command.EditorCancelSelection)
  | _ => (s, some Command.NoOp)

/-- The `Mode::Operator(op)` arm of `map_query_editor_key`: a `g` is
re-buffered without leaving Operator mode; every other key returns the
mode to Normal, emitting `EditorPerformPendingOperator` when it is a
supported motion or the operator char itself, and `NoOp` otherwise. -/
def operatorModeResolve (s : ResolverState) (input : Input) (op : Char) :
    ResolverState × Option Command :=
  match input.key with
  | Key.Char c =>
    if c = 'g' then
      ({ s with editorPendingInput := some input }, some Command.NoOp)
    else
      let isMotion : Bool :=
        c = 'h' || c = 'j' || c = 'k' || c = 'l' || c = 'w' || c = 'e' || c = 'b'
          || c = '^' || c = '$' || c = 'G' || c = op
      ({ s with editorMode := Mode.Normal },
       some (if isMotion then Command.EditorPerformPendingOperator else Command.NoOp))
  | _ =>
      ({ s with editorMode := Mode.Normal }, some Command.NoOp)

/-- Dispatch on `self.editor_mode` (the `match self.editor_mode` at the
end of `map_query_editor_key`). -/
def resolveByMode (s : ResolverState) (input : Input) :
    ResolverState × Option Command :=
  match s.editorMode with
  | Mode.Normal => normalModeResolve s input
  | Mode.Insert => insertModeResolve s input
  | Mode.Visual => visualModeResolve s input
  | Mode.Operator op => operatorModeResolve s input op

/-- `DefaultKeyMapper::map_query_editor_key`.  The Rust method mutates
`self`; the embedding returns the updated state together with the
resolved command.  `editor_pending_input.take()` is the reset to `none`
on entry to the pending block. -/
def map_query_editor_key (s : ResolverState) (input : Input) :
    ResolverState × Option Command :=
  if input.key = Key.Null then (s, some Command.NoOp)
  else
    match s.editorPendingInput with
    | some pending =>
      let s0 : ResolverState := { s with editorPendingInput := none }
      if pending.key = Key.Char 'g' ∧ pending.ctrl = false
          ∧ input.key = Key.Char 'g' ∧ input.ctrl = false then
        (s0, some (Command.EditorMoveCursor CursorMove.Top))
      else
        match opCharOf pending.key with
        | some op =>
          if input.key = Key.Char op then
            (s0,
             if op = 'y' then some Command.EditorCopySelection
             else if op = 'd' ∨ op = 'c' then some Command.EditorDeleteLineByEnd
             else none)
          else if isPendingMotionKey input.key then
            ({ s0 with editorPendingInput := some input },
             some (Command.EditorSetMode (Mode.Operator op)))
          else resolveByMode s0 input
        | none => resolveByMode s0 input
    | none => resolveByMode s input

/-- `DefaultKeyMapper::map_data_table_key`. -/
def map_data_table_key (key : KeyCode) (tab_index : Nat) : Option Command :=
  match key with
  | KeyCode.Char '[' => some Command.DataTablePreviousTab
  | KeyCode.Char ']' => some Command.DataTableNextTab
  | KeyCode.Char 'j' =>
      if tab_index = 2 then some Command.DataTableNextHistoryRow
      else some Command.DataTableNextRow
  | KeyCode.Down =>
      if tab_index = 2 then some Command.DataTableNextHistoryRow
      else some Command.DataTableNextRow
  | KeyCode.Char 'k' =>
      if tab_index = 2 then some Command.DataTablePreviousHistoryRow
      else some Command.DataTablePreviousRow
  | KeyCode.Up =>
      if tab_index = 2 then some Command.DataTablePreviousHistoryRow
      else some Command.DataTablePreviousRow
  | KeyCode.PageDown => some Command.DataTableNextPage
  | KeyCode.PageUp => some Command.DataTablePreviousPage
  | KeyCode.Char ' ' => some Command.DataTableNextPage
  | KeyCode.Char 'g' => some Command.DataTableJumpToFirstRow
  | KeyCode.Char 'G' => some Command.DataTableJumpToLastRow
  | KeyCode.Char '>' => some Command.DataTableScrollRight
  | KeyCode.Char '<' => some Command.DataTableScrollLeft
  | KeyCode.Char 'l' => some Command.DataTableNextColumn
  | KeyCode.Right => some Command.DataTableNextColumn
  | KeyCode.Char 'h' => some Command.DataTablePreviousColumn
  | KeyCode.Left => some Command.DataTablePreviousColumn
  | KeyCode.Char 'w' => some Command.DataTableAdjustColumnWidthIncrease
  | KeyCode.Char 'W' => some Command.DataTableAdjustColumnWidthDecrease
  | KeyCode.Char 'n' => some Command.DataTableNextColor
  | KeyCode.Char 'p' => some Command.DataTablePreviousColor
  | KeyCode.Char 'y' => some Command.DataTableCopySelectedCell
  | KeyCode.Char 'Y' => some Command.DataTableCopySelectedRow
  | KeyCode.Char 'C' => some Command.DataTableCopyQueryToEditor
  | KeyCode.Char 'R' => some Command.DataTableRunSelectedHistoryQuery
  | KeyCode.Char c =>
      if c.isDigit then
        let digit := c.toNat - '0'.toNat
        if digit > 0 then some (Command.DataTableSetTabIndex (digit - 1)) else none
      else none
  | _ => none

/-- `DefaultKeyMapper::map_sidebar_key`. -/
def map_sidebar_key (key : KeyCode) : Option Command :=
  match key with
  | KeyCode.Char '\n' => some Command.SidebarToggleSelected
  | KeyCode.Char ' ' => some Command.SidebarToggleSelected
  | KeyCode.Left => some Command.SidebarKeyLeft
  | KeyCode.Right => some Command.SidebarKeyRight
  | KeyCode.Down => some Command.SidebarKeyDown
  | KeyCode.Up => some Command.SidebarKeyUp
  | KeyCode.Esc => some Command.SidebarDeselect
  | KeyCode.Home => some Command.SidebarSelectFirst
  | KeyCode.End => some Command.SidebarSelectLast
  | KeyCode.PageDown => some (Command.SidebarScrollDown 3)
  | KeyCode.PageUp => some (Command.SidebarScrollUp 3)
  | _ => none

/-- `KeyMapper::map_key_to_command` for `DefaultKeyMapper`: non-press
events resolve to nothing; `q`, `?`, Tab and F5 are intercepted before
any focus-specific dispatch; otherwise the key goes to the focused
panel's map. -/
def map_key_to_command (s : ResolverState) (key_event : KeyEvent)
    (current_focus : Focus) (tab_index : Nat) :
    ResolverState × Option Command :=
  if key_event.kind ≠ KeyEventKind.Press then (s, none)
  else
    let command : Option Command :=
      match key_event.code with
      | KeyCode.Char 'q' => some Command.Quit
      | KeyCode.Char '?' => some Command.ShowKeyMap
      | KeyCode.Tab => some Command.ToggleFocus
      | KeyCode.F 5 => some Command.ExecuteQuery
      | _ => none
    match command with
    | some c => (s, some c)
    | none =>
      match current_focus with
      | Focus.Editor => map_query_editor_key s (inputFrom key_event)
      | Focus.Table => (s, map_data_table_key key_event.code tab_index)
      | Focus.Sidebar => (s, map_sidebar_key key_event.code)

/-- Run the query-editor resolver over a list of inputs, collecting the
resolved command of every key event in order. -/
def resolveSeq (s : ResolverState) (inputs : List Input) :
    ResolverState × List (Option Command) :=
  match inputs with
  | [] => (s, [])
  | i :: rest =>
    let (s1, c) := map_query_editor_key s i
    let (s2, cs) := resolveSeq s1 rest
    (s2, c :: cs)

/-! ## Query history and global state (`src/state.rs`) -/

/-- `state::QueryStats`.  `Duration` is modelled as a `Nat` (elapsed
milliseconds). -/
structure QueryStats where
  rows : Nat
  elapsed : Nat
  deriving DecidableEq, Repr

/-- `state::QueryHistoryEntry`.  `DateTime<Utc>` is modelled as an
abstract `Nat` timestamp; `Duration` as a `Nat`. -/
structure QueryHistoryEntry where
  query : String
  connection_name : Option String
  timestamp : Nat
  success : Bool
  rows_affected : Nat
  execution_time : Nat
  deriving DecidableEq, Repr

/-- The two `static` cells `GLOBAL_QUERY_STATS` and
`GLOBAL_QUERY_HISTORY`, gathered into one explicit state value. -/
structure GlobalState where
  query_stats : Option QueryStats
  query_history : List QueryHistoryEntry
  deriving DecidableEq, Repr

/-- `state::update_query_stats`. -/
def update_query_stats (rows elapsed : Nat) (g : GlobalState) : GlobalState :=
  { g with query_stats := some { rows := rows, elapsed := elapsed } }

/-- `state::add_to_history`: `Vec::push`, i.e. append at the end. -/
def add_to_history (entry : QueryHistoryEntry) (g : GlobalState) : GlobalState :=
  { g with query_history := g.query_history ++ [entry] }

/-- `state::get_history`: filter by connection name when one is given. -/
def get_history (connection_name : Option String) (g : GlobalState) :
    List QueryHistoryEntry :=
  match connection_name with
  | some name => g.query_history.filter fun e => e.connection_name = some name
  | none => g.query_history

/-- The backend-neutral outcome of one query execution, as consumed by the
pipeline: a `Data` result (read query), an `Affected` result (mutating
statement), or a backend/classifier error.  The elapsed wall-clock time
measured by `query_timer` is carried along in milliseconds. -/
inductive ExecOutcome where
  | data (headers : List String) (rows : List (List String)) (elapsed : Nat)
  | affected (rows : Nat) (elapsed : Nat)
  | error (message : String) (elapsed : Nat)
  deriving DecidableEq, Repr

/-- Whether the outcome is a successful execution. -/
def ExecOutcome.isSuccess : ExecOutcome → Bool
  | .data _ _ _ => true
  | .affected _ _ => true
  | .error _ _ => false

/-- The rows-affected / rows-fetched count of an outcome (0 on error). -/
def ExecOutcome.rowCount : ExecOutcome → Nat
  | .data _ rows _ => rows.length
  | .affected rows _ => rows
  | .error _ _ => 0

/-- The elapsed time of an outcome. -/
def ExecOutcome.elapsedTime : ExecOutcome → Nat
  | .data _ _ e => e
  | .affected _ e => e
  | .error _ e => e

/-- Modelled from the spec: the history-recording `execute_query` — the
three-argument version taking the connection identifier that `app.rs`
calls (`execute_query(pool, &query, self.connection_name.clone())`) is
not under `src/`; only its caller and the `state.rs` helpers it uses
(`update_query_stats`, `add_to_history`) are.  Per §4.3 of the spec: on
success, record `{rowCount, elapsed}` into the most-recent-query-
statistics slot and append a `QueryHistoryEntry` with `success = true`;
on failure, still append an entry with `success = false`, symmetric with
the success path. -/
def execute_query_record (connection_name : Option String) (sql : String)
    (timestamp : Nat) (outcome : ExecOutcome) (g : GlobalState) : GlobalState :=
  match outcome with
  | .data _ rows elapsed =>
    add_to_history
      { query := sql, connection_name := connection_name, timestamp := timestamp,
        success := true, rows_affected := rows.length, execution_time := elapsed }
      (update_query_stats rows.length elapsed g)
  | .affected rows elapsed =>
    add_to_history
      { query := sql, connection_name := connection_name, timestamp := timestamp,
        success := true, rows_affected := rows, execution_time := elapsed }
      (update_query_stats rows elapsed g)
  | .error _ elapsed =>
    add_to_history
      { query := sql, connection_name := connection_name, timestamp := timestamp,
        success := false, rows_affected := 0, execution_time := elapsed }
      g

/-! ## The result table model (`DataTable` in `src/layout/data_table.rs`)

Cells are modelled as the display strings produced by
`get_value_as_string`'s typed-extraction cascade: the cascade itself
runs over driver-specific `PgRow` accessors (an external concern), and
every claim about the table model depends only on the resulting text.
A row is therefore a `List String` and
`get_value_as_string row i` is lookup with `""` as the out-of-range
default (every typed extraction fails on an out-of-range index). -/

/-- `LoadingState` of the data table. -/
inductive LoadingState where
  | Idle
  | Loading
  | Error (message : String)
  deriving DecidableEq, Repr

/-- The fields of `DataTable` the claims are about.  `state.selected()` /
`state.selected_column()` of the ratatui `TableState` are the `selected`
and `selectedColumn` fields; `history_table_state.selected()` is
`history_selected`; `tabs.index` is `tabs_index`.  Scrollbar drawing
state is rendering-only and omitted. -/
structure DataTable where
  selected : Option Nat
  selectedColumn : Option Nat
  history_selected : Option Nat
  headers : List String
  rows : List (List String)
  query_history : List QueryHistoryEntry
  column_widths : List Nat
  min_column_widths : List Nat
  horizontal_scroll : Nat
  tabs_index : Nat
  status_message : Option String
  elapsed : Nat
  page_size : Nat
  current_page : Nat
  loading_state : LoadingState
  deriving DecidableEq, Repr

/-- Display width of a cell's text.  Models
`unicode_width::UnicodeWidthStr::width`; the claims depend only on this
being a fixed width per string, so the embedding uses the character
count. -/
def displayWidth (s : String) : Nat := s.length

/-- The `as u16` cast (truncation). -/
def u16cast (n : Nat) : Nat := n % 65536

/-- `u16::saturating_add(2)`. -/
def u16satAdd2 (w : Nat) : Nat := min (w + 2) 65535

/-- `DataTable::get_value_as_string`: the coercion cascade, modelled on
pre-coerced rows (see the section comment). -/
def get_value_as_string (row : List String) (index : Nat) : String :=
  (row.get? index).getD ""

/-- One pass of the width-sampling inner loop: for every column index,
take the max of the current width and the row's cell display width
(`for (col_idx, col_width) in widths.iter_mut().enumerate()`). -/
def widthStep (row : List String) (ws : List Nat) : List Nat :=
  ws.mapIdx fun i w => max w (u16cast (displayWidth (get_value_as_string row i)))

/-- `DataTable::calculate_column_widths`: header widths, widened by a
sample of up to the first 100 rows, then `saturating_add(2).max(3)`.
Returns `(column_widths, min_column_widths)` — two copies of the same
list. -/
def calculate_column_widths (headers : List String) (rows : List (List String)) :
    List Nat × List Nat :=
  let widths := headers.map fun h => u16cast (displayWidth h)
  let sample_size := 100
  let sampled := (rows.take (min rows.length sample_size)).foldl
    (fun ws row => widthStep row ws) widths
  let final_widths := sampled.map fun w => max (u16satAdd2 w) 3
  (final_widths, final_widths)

/-- `DataTable::is_empty`. -/
def DataTable.is_empty (t : DataTable) : Bool := t.rows.isEmpty

/-- `DataTable::total_pages`.  The source computes
`(rows.len() as f64 / page_size as f64).ceil() as usize`; `f64`
arithmetic is exact on these operands for every row count below `2^52`,
so the embedding uses exact ceiling division. -/
def DataTable.total_pages (t : DataTable) : Nat :=
  if t.rows.isEmpty then 1
  else (t.rows.length + t.page_size - 1) / t.page_size

/-- `DataTable::get_current_page_rows` (keeping only the page-slicing;
cells are already display strings in the model).  The Rust slice
`rows[start..end]` panics when `start > rows.len()`; the pagination
invariant (claim C5) keeps `start` strictly below `rows.len()`, and the
embedding uses the total `drop`/`take` form. -/
def DataTable.get_current_page_rows (t : DataTable) : List (List String) :=
  let start_index := t.current_page * t.page_size
  let end_index := min (start_index + t.page_size) t.rows.length
  (t.rows.drop start_index).take (end_index - start_index)

/-- `DataTable::next_row`: wraps within the current page. -/
def DataTable.next_row (t : DataTable) : DataTable :=
  if t.is_empty then t
  else
    let current_page_rows_len := t.get_current_page_rows.length
    let i :=
      match t.selected with
      | some i => if i ≥ current_page_rows_len - 1 then 0 else i + 1
      | none => 0
    { t with selected := some i }

/-- `DataTable::previous_row`: wraps within the current page. -/
def DataTable.previous_row (t : DataTable) : DataTable :=
  if t.rows.isEmpty then t
  else
    let current_page_rows_len := t.get_current_page_rows.length
    let i :=
      match t.selected with
      | some i => if i = 0 then current_page_rows_len - 1 else i - 1
      | none => 0
    { t with selected := some i }

/-- Checked `usize` subtraction: `a - b` panics on underflow (debug
profile; it wraps in release), modelled as `none`. -/
def usize_sub (a b : Nat) : Option Nat :=
  if b ≤ a then some (a - b) else none

/-- `DataTable::next_history_row`.  The `Some(i)` arm evaluates
`self.query_history.len() - 1`, which underflows when the history is
empty. -/
def DataTable.next_history_row (t : DataTable) : Option DataTable :=
  match t.history_selected with
  | some i =>
    (usize_sub t.query_history.length 1).map fun m =>
      { t with history_selected := some (if i ≥ m then 0 else i + 1) }
  | none => some { t with history_selected := some 0 }

/-- `DataTable::previous_history_row`.  The `i == 0` branch evaluates
`self.query_history.len() - 1`, which underflows when the history is
empty. -/
def DataTable.previous_history_row (t : DataTable) : Option DataTable :=
  match t.history_selected with
  | some i =>
    if i = 0 then
      (usize_sub t.query_history.length 1).map fun m =>
        { t with history_selected := some m }
    else some { t with history_selected := some (i - 1) }
  | none => some { t with history_selected := some 0 }

/-- `DataTable::next_page`: clamped at the last page. -/
def DataTable.next_page (t : DataTable) : DataTable :=
  if t.current_page < t.total_pages - 1 then
    { t with current_page := t.current_page + 1, selected := some 0 }
  else t

/-- `DataTable::previous_page`: clamped at page 0. -/
def DataTable.previous_page (t : DataTable) : DataTable :=
  if t.current_page > 0 then
    { t with current_page := t.current_page - 1, selected := some 0 }
  else t

/-- `DataTable::jump_to_absolute_row`: clamp, then derive page and
on-page row. -/
def DataTable.jump_to_absolute_row (t : DataTable) (absolute_row : Nat) : DataTable :=
  if t.rows.isEmpty then t
  else
    let total_rows := t.rows.length
    let target_absolute_row := min absolute_row (total_rows - 1)
    let target_page := target_absolute_row / t.page_size
    let row_on_page := target_absolute_row % t.page_size
    { t with current_page := target_page, selected := some row_on_page }

/-- `DataTable::copy_selected_cell` (without the clipboard side
channel, which is best-effort and does not affect the returned
content). -/
def DataTable.copy_selected_cell (t : DataTable) : Option String :=
  match t.selected, t.selectedColumn with
  | some row_idx_on_page, some col_idx =>
    let absolute_row_idx := t.current_page * t.page_size + row_idx_on_page
    let adjusted_col := col_idx - 1 + t.horizontal_scroll
    match t.rows[absolute_row_idx]? with
    | none => none
    | some row =>
      if col_idx = 0 then some (toString (absolute_row_idx + 1))
      else if adjusted_col < row.length then
        some (get_value_as_string row adjusted_col)
      else none
  | _, _ => none

/-- `DataTable::start_loading`. -/
def DataTable.start_loading (t : DataTable) : DataTable :=
  { t with tabs_index := 0, loading_state := LoadingState.Loading }

/-- `DataTable::finish_loading`: replace content, recompute column
widths, reset selection and pagination, and pick the active tab from
emptiness. -/
def DataTable.finish_loading (t : DataTable) (headers : List String)
    (rows : List (List String)) (elapsed : Nat)
    (query_history : List QueryHistoryEntry) : DataTable :=
  let cw := calculate_column_widths headers rows
  { t with
    headers := headers
    rows := rows
    elapsed := elapsed
    loading_state := LoadingState.Idle
    status_message := some ("Query complete in " ++ toString elapsed ++ " ms.")
    query_history := query_history
    column_widths := cw.1
    min_column_widths := cw.2
    selected := if rows.isEmpty then none else some 0
    current_page := 0
    tabs_index := if rows.isEmpty then 1 else 0 }

/-- `DataTable::set_error_state`. -/
def DataTable.set_error_state (t : DataTable) (message : String) : DataTable :=
  { t with
    loading_state := LoadingState.Error message
    status_message := some ("Error: " ++ message)
    tabs_index := 1 }

/-! ## Concrete states used to evaluate the theorems -/

/-- A small concrete table: three rows of two columns, one page. -/
def sampleTable : DataTable :=
  { selected := some 0
    selectedColumn := some 2
    history_selected := none
    headers := ["id", "name"]
    rows := [["1", "a"], ["2", "b"], ["3", "c"]]
    query_history := []
    column_widths := [4, 6]
    min_column_widths := [4, 6]
    horizontal_scroll := 0
    tabs_index := 0
    status_message := none
    elapsed := 0
    page_size := 100
    current_page := 0
    loading_state := LoadingState.Idle }

/-- `sampleTable` with the last row of the page selected. -/
def sampleTableLastRow : DataTable := { sampleTable with selected := some 2 }

/-- A table whose query history is empty and no history row selected. -/
def emptyHistoryTable : DataTable := { sampleTable with history_selected := none }

/-- `emptyHistoryTable` after one next-history-row press: row 0 is
selected although the history is empty. -/
def emptyHistorySelectedTable : DataTable :=
  { emptyHistoryTable with history_selected := some 0 }

/-! ## C1 — query execution always appends exactly one history entry -/

/-- C1: for every query execution outcome, exactly one
`QueryHistoryEntry` is appended to the history log; on success the
most-recent-query-statistics slot is updated and the entry has
`success = true`; on failure an entry with `success = false` is still
appended and the statistics slot is untouched. -/
theorem execute_query_appends_one_history_entry
    (connection_name : Option String) (sql : String) (timestamp : Nat)
    (outcome : ExecOutcome) (g : GlobalState) :
    ∃ e : QueryHistoryEntry,
      (execute_query_record connection_name sql timestamp outcome g).query_history
        = g.query_history ++ [e]
      ∧ e.success = outcome.isSuccess
      ∧ e.query = sql
      ∧ e.connection_name = connection_name
      ∧ (outcome.isSuccess = true →
          (execute_query_record connection_name sql timestamp outcome g).query_stats
            = some { rows := outcome.rowCount, elapsed := outcome.elapsedTime })
      ∧ (outcome.isSuccess = false →
          (execute_query_record connection_name sql timestamp outcome g).query_stats
            = g.query_stats) := by
  cases outcome <;> refine ⟨_, rfl, rfl, rfl, rfl, ?_, ?_⟩ <;>
    simp [execute_query_record, add_to_history, update_query_stats,
      ExecOutcome.isSuccess, ExecOutcome.rowCount, ExecOutcome.elapsedTime]

/-! ## C4 — global keys are intercepted before focus dispatch -/

/-- C4: for every focus, editor mode and pending-keystroke state, a key
press of `q`, `?`, Tab or F5 resolves to the corresponding global
command before any focus-specific dispatch, leaving the resolver state
untouched; in particular `q` during Insert mode resolves to `Quit`,
never to a character-insert command. -/
theorem global_keys_intercepted (s : ResolverState) (focus : Focus)
    (tab_index : Nat) (ctrl : Bool) :
    map_key_to_command s ⟨KeyCode.Char 'q', KeyEventKind.Press, ctrl⟩ focus tab_index
      = (s, some Command.Quit)
    ∧ map_key_to_command s ⟨KeyCode.Char '?', KeyEventKind.Press, ctrl⟩ focus tab_index
      = (s, some Command.ShowKeyMap)
    ∧ map_key_to_command s ⟨KeyCode.Tab, KeyEventKind.Press, ctrl⟩ focus tab_index
      = (s, some Command.ToggleFocus)
    ∧ map_key_to_command s ⟨KeyCode.F 5, KeyEventKind.Press, ctrl⟩ focus tab_index
      = (s, some Command.ExecuteQuery)
    ∧ ∀ c : Char,
        (map_key_to_command s ⟨KeyCode.Char 'q', KeyEventKind.Press, ctrl⟩ focus
            tab_index).2 ≠ some (Command.EditorInputChar c) := by
  refine ⟨rfl, rfl, rfl, rfl, fun c => ?_⟩
  simp [map_key_to_command]

/-! ## C7 — jump-to-absolute-row: clamp, page/row arithmetic, idempotence -/

/-- C7: for a non-empty result set, `jump_to_absolute_row` clamps the
requested row to `[0, rowCount-1]`, sets the page to the clamped row
divided by the page size and the on-page selection to the remainder, and
is idempotent. -/
theorem jump_to_absolute_row_spec (t : DataTable) (r : Nat) (hne : t.rows ≠ []) :
    (t.jump_to_absolute_row r).current_page
      = min r (t.rows.length - 1) / t.page_size
    ∧ (t.jump_to_absolute_row r).selected
      = some (min r (t.rows.length - 1) % t.page_size)
    ∧ (t.jump_to_absolute_row r).jump_to_absolute_row r = t.jump_to_absolute_row r := by
  have hE : t.rows.isEmpty = false := by
    simp [List.isEmpty_iff, hne]
  refine ⟨?_, ?_, ?_⟩ <;> simp [DataTable.jump_to_absolute_row, hE]

/-- Witness for C7 at a concrete table: jumping to row 2 lands on page 0,
row 2, and doing it twice equals doing it once. -/
theorem jump_to_absolute_row_spec_witness :
    (sampleTable.jump_to_absolute_row 2).current_page = min 2 (sampleTable.rows.length - 1) / sampleTable.page_size
    ∧ (sampleTable.jump_to_absolute_row 2).selected = some (min 2 (sampleTable.rows.length - 1) % sampleTable.page_size)
    ∧ (sampleTable.jump_to_absolute_row 2).jump_to_absolute_row 2
      = sampleTable.jump_to_absolute_row 2 :=
  jump_to_absolute_row_spec sampleTable 2 (by decide)

/-! ## C9 — selected-cell copy resolves absolute row and column -/

/-- C9: with a selected row and column and the addressed row present,
`copy_selected_cell` resolves the absolute row as
`current_page * page_size + selected row`; display column 0 copies the
1-based absolute row number, and a nonzero display column `c` copies
data column `c - 1 + horizontal_scroll` of that row. -/
theorem copy_selected_cell_spec (t : DataTable) (rp c : Nat) (row : List String)
    (hsel : t.selected = some rp) (hcol : t.selectedColumn = some c)
    (hrow : t.rows[t.current_page * t.page_size + rp]? = some row) :
    (c = 0 →
      t.copy_selected_cell = some (toString (t.current_page * t.page_size + rp + 1)))
    ∧ (c ≠ 0 → c - 1 + t.horizontal_scroll < row.length →
        t.copy_selected_cell
          = some (get_value_as_string row (c - 1 + t.horizontal_scroll))) := by
  constructor
  · intro h0
    simp [DataTable.copy_selected_cell, hsel, hcol, hrow, h0]
  · intro hc0 hlt
    simp [DataTable.copy_selected_cell, hsel, hcol, hrow, hc0, hlt]

/-- Witness for C9 at a concrete table: display column 2 with scroll 0
copies data column 1 of row 0. -/
theorem copy_selected_cell_spec_witness :
    sampleTable.copy_selected_cell = some (get_value_as_string ["1", "a"] 1) :=
  (copy_selected_cell_spec sampleTable 0 2 ["1", "a"] (by decide) (by decide)
    (by decide)).2 (by decide) (by decide)

/-! ## C10 — history-row navigation underflows on an empty history -/

/-- C10: the claim that `next_history_row`/`previous_history_row` never
underflow fails on the code.  Selecting history row 0 with an empty
history is reachable (first conjunct: `next_history_row` selects row 0
even when the history is empty); from that state both operations
evaluate `query_history.len() - 1` on length 0, which underflows
(`none` in the embedding; a panic in a Rust debug build). -/
theorem history_row_navigation_underflows :
    emptyHistoryTable.next_history_row = some emptyHistorySelectedTable
    ∧ emptyHistorySelectedTable.next_history_row = none
    ∧ emptyHistorySelectedTable.previous_history_row = none := by
  decide

/-! ## C6 — row navigation wraps within the current page -/

/-- C6: for a non-empty result set, `next_row` on the last row of the
current page wraps to row 0 and `previous_row` on row 0 wraps to the
last row of the current page (the last populated row on a final partial
page); neither operation changes the current page. -/
theorem row_navigation_wraps (t : DataTable) (hne : t.rows ≠ []) :
    (t.selected = some (t.get_current_page_rows.length - 1) →
      t.next_row.selected = some 0)
    ∧ (t.selected = some 0 →
      t.previous_row.selected = some (t.get_current_page_rows.length - 1))
    ∧ t.next_row.current_page = t.current_page
    ∧ t.previous_row.current_page = t.current_page := by
  have hE : t.rows.isEmpty = false := by
    simp [List.isEmpty_iff, hne]
  refine ⟨?_, ?_, ?_, ?_⟩
  · intro hsel
    simp [DataTable.next_row, DataTable.is_empty, hE, hsel]
  · intro hsel
    simp [DataTable.previous_row, hE, hsel]
  · simp only [DataTable.next_row, DataTable.is_empty, hE]
    split <;> rfl
  · simp only [DataTable.previous_row, hE]
    split <;> rfl

/-- Witness for C6 at a concrete table: with the last of three rows
selected, `next_row` wraps to row 0; with row 0 selected,
`previous_row` wraps to row 2; the page is unchanged. -/
theorem row_navigation_wraps_witness :
    (sampleTableLastRow.selected
        = some (sampleTableLastRow.get_current_page_rows.length - 1) →
      sampleTableLastRow.next_row.selected = some 0)
    ∧ (sampleTableLastRow.selected = some 0 →
      sampleTableLastRow.previous_row.selected
        = some (sampleTableLastRow.get_current_page_rows.length - 1))
    ∧ sampleTableLastRow.next_row.current_page = sampleTableLastRow.current_page
    ∧ sampleTableLastRow.previous_row.current_page
      = sampleTableLastRow.current_page :=
  row_navigation_wraps sampleTableLastRow (by decide)

/-! ## C2 — operator-then-motion sequences -/

/-- C2 counterexample: from Normal mode with no pending key, pressing
`d` then the valid motion `j` emits zero perform-pending-operator
commands over the two key events (both events resolve to
`EditorSetMode (Operator 'd')`), and leaves the editor mode at
`Operator 'd'`, not Normal — the motion key is re-buffered instead of
performing the operator. -/
theorem operator_motion_counterexample :
    (resolveSeq ResolverState.new
        [⟨Key.Char 'd', false⟩, ⟨Key.Char 'j', false⟩]).2
      = [some (Command.EditorSetMode (Mode.Operator 'd')),
         some (Command.EditorSetMode (Mode.Operator 'd'))]
    ∧ (∀ c ∈ [some (Command.EditorSetMode (Mode.Operator 'd')),
          some (Command.EditorSetMode (Mode.Operator 'd'))],
        c ≠ some Command.EditorPerformPendingOperator)
    ∧ (resolveSeq ResolverState.new
        [⟨Key.Char 'd', false⟩, ⟨Key.Char 'j', false⟩]).1.editorMode
      = Mode.Operator 'd'
    ∧ Mode.Operator 'd' ≠ Mode.Normal := by
  refine ⟨rfl, ?_, rfl, ?_⟩
  · intro c hc
    rcases List.mem_cons.mp hc with rfl | hc2
    · intro hcon
      injection hcon with h2
      cases h2
    · rcases List.mem_cons.mp hc2 with rfl | hc3
      · intro hcon
        injection hcon with h2
        cases h2
      · cases hc3
  · intro hcon
    cases hcon

/-- The operator characters `y`, `d`, `c`. -/
def operatorChars : List Char := ['y', 'd', 'c']

/-- The motion characters valid after an operator (the Operator-mode
motion list; `g` is excluded because it buffers instead of moving). -/
def operatorMotionChars : List Char :=
  ['h', 'j', 'k', 'l', 'w', 'e', 'b', '^', '$', 'G']

/-- The whole-line variant emitted for a doubled operator:
`yy` copies the selection, `dd`/`cc` delete to line end. -/
def wholeLineCommand (op : Char) : Command :=
  if op = 'y' then Command.EditorCopySelection else Command.EditorDeleteLineByEnd

/-- C2 amended: from Normal mode with no pending key, `op` then motion
`m` emits the set-operator-mode command on both key events and
re-buffers `m`, leaving the resolver in Operator mode; a further motion
`m'` is required, after which exactly one perform-pending-operator
command has been emitted over the three key events and the mode is back
to Normal.  `op` then `op` yields the whole-line variant on the second
key event. -/
theorem operator_key_sequences :
    ∀ op ∈ operatorChars, ∀ m ∈ operatorMotionChars, ∀ m' ∈ operatorMotionChars,
      resolveSeq ResolverState.new [⟨Key.Char op, false⟩, ⟨Key.Char m, false⟩]
        = (⟨Mode.Operator op, some ⟨Key.Char m, false⟩⟩,
           [some (Command.EditorSetMode (Mode.Operator op)),
            some (Command.EditorSetMode (Mode.Operator op))])
      ∧ resolveSeq ResolverState.new
          [⟨Key.Char op, false⟩, ⟨Key.Char m, false⟩, ⟨Key.Char m', false⟩]
        = (⟨Mode.Normal, none⟩,
           [some (Command.EditorSetMode (Mode.Operator op)),
            some (Command.EditorSetMode (Mode.Operator op)),
            some Command.EditorPerformPendingOperator])
      ∧ (resolveSeq ResolverState.new
          [⟨Key.Char op, false⟩, ⟨Key.Char op, false⟩]).2
        = [some (Command.EditorSetMode (Mode.Operator op)),
           some (wholeLineCommand op)] := by
  intro op hop m hm m' hm'
  simp only [operatorChars, operatorMotionChars, List.mem_cons,
    List.not_mem_nil, or_false] at hop hm hm'
  rcases hop with rfl | rfl | rfl <;>
    rcases hm with rfl | rfl | rfl | rfl | rfl | rfl | rfl | rfl | rfl | rfl <;>
      rcases hm' with rfl | rfl | rfl | rfl | rfl | rfl | rfl | rfl | rfl | rfl <;>
        exact ⟨rfl, rfl, rfl⟩

/-- Witness for the amended C2 at `op = d`, `m = j`, `m' = k`. -/
theorem operator_key_sequences_witness :
    resolveSeq ResolverState.new
        [⟨Key.Char 'd', false⟩, ⟨Key.Char 'j', false⟩, ⟨Key.Char 'k', false⟩]
      = (⟨Mode.Normal, none⟩,
         [some (Command.EditorSetMode (Mode.Operator 'd')),
          some (Command.EditorSetMode (Mode.Operator 'd')),
          some Command.EditorPerformPendingOperator]) :=
  (operator_key_sequences 'd' (by decide) 'j' (by decide) 'k' (by decide)).2.1

/-! ## C3 — the `gg` sequence and the pending-keystroke lifetime -/

/-- A predicate holds of an `ite` when it holds of both branches. -/
theorem ite_pred {α : Sort _} (p : α → Prop) (c : Prop) [Decidable c] {a b : α}
    (ha : p a) (hb : p b) : p (if c then a else b) := by
  by_cases h : c
  · rwa [if_pos h]
  · rwa [if_neg h]

/-- `normalModeResolve` leaves the pending buffer alone or replaces it
with the current input. -/
theorem normalModeResolve_pending (s : ResolverState) (input : Input) :
    (normalModeResolve s input).1.editorPendingInput = s.editorPendingInput
    ∨ (normalModeResolve s input).1.editorPendingInput = some input := by
  rcases s with ⟨mode, pending⟩
  rcases input with ⟨k, ctrl⟩
  cases k <;> try (left; rfl)
  rename_i c
  dsimp only [normalModeResolve]
  repeat
    first
    | (left; rfl)
    | (right; rfl)
    | apply ite_pred (fun r : ResolverState × Option Command =>
        r.1.editorPendingInput = pending
        ∨ r.1.editorPendingInput = some ⟨Key.Char c, ctrl⟩)

/-- `insertModeResolve` leaves the pending buffer alone. -/
theorem insertModeResolve_pending (s : ResolverState) (input : Input) :
    (insertModeResolve s input).1.editorPendingInput = s.editorPendingInput := by
  rcases s with ⟨mode, pending⟩
  rcases input with ⟨k, ctrl⟩
  cases k <;> try rfl
  rename_i c
  dsimp only [insertModeResolve]
  apply ite_pred (fun r : ResolverState × Option Command =>
    r.1.editorPendingInput = pending) <;> rfl

/-- `visualModeResolve` leaves the pending buffer alone or replaces it
with the current input. -/
theorem visualModeResolve_pending (s : ResolverState) (input : Input) :
    (visualModeResolve s input).1.editorPendingInput = s.editorPendingInput
    ∨ (visualModeResolve s input).1.editorPendingInput = some input := by
  rcases s with ⟨mode, pending⟩
  rcases input with ⟨k, ctrl⟩
  cases k <;> try (left; rfl)
  rename_i c
  dsimp only [visualModeResolve]
  repeat
    first
    | (left; rfl)
    | (right; rfl)
    | apply ite_pred (fun r : ResolverState × Option Command =>
        r.1.editorPendingInput = pending
        ∨ r.1.editorPendingInput = some ⟨Key.Char c, ctrl⟩)

/-- `operatorModeResolve` leaves the pending buffer alone or replaces it
with the current input. -/
theorem operatorModeResolve_pending (s : ResolverState) (input : Input) (op : Char) :
    (operatorModeResolve s input op).1.editorPendingInput = s.editorPendingInput
    ∨ (operatorModeResolve s input op).1.editorPendingInput = some input := by
  rcases s with ⟨mode, pending⟩
  rcases input with ⟨k, ctrl⟩
  cases k <;> try (left; rfl)
  rename_i c
  dsimp only [operatorModeResolve]
  apply ite_pred (fun r : ResolverState × Option Command =>
    r.1.editorPendingInput = pending
    ∨ r.1.editorPendingInput = some ⟨Key.Char c, ctrl⟩)
  · right; rfl
  · left; rfl

/-- The mode dispatch leaves the pending buffer alone or replaces it
with the current input. -/
theorem resolveByMode_pending (s : ResolverState) (input : Input) :
    (resolveByMode s input).1.editorPendingInput = s.editorPendingInput
    ∨ (resolveByMode s input).1.editorPendingInput = some input := by
  rcases hm : s.editorMode with _ | _ | _ | op <;>
    rw [resolveByMode, hm]
  · exact normalModeResolve_pending s input
  · exact Or.inl (insertModeResolve_pending s input)
  · exact visualModeResolve_pending s input
  · exact operatorModeResolve_pending s input op

/-- `normalModeResolve` never emits the move-to-top command. -/
theorem normalModeResolve_ne_top (s : ResolverState) (input : Input) :
    (normalModeResolve s input).2 ≠ some (Command.EditorMoveCursor CursorMove.Top) := by
  rcases s with ⟨mode, pending⟩
  rcases input with ⟨k, ctrl⟩
  cases k <;> try (intro hcon; exact Option.noConfusion hcon fun h2 => by cases h2)
  rename_i c
  dsimp only [normalModeResolve]
  repeat
    first
    | (intro hcon; exact Option.noConfusion hcon fun h2 => by cases h2)
    | apply ite_pred (fun r : ResolverState × Option Command =>
        r.2 ≠ some (Command.EditorMoveCursor CursorMove.Top))

/-- `insertModeResolve` never emits the move-to-top command. -/
theorem insertModeResolve_ne_top (s : ResolverState) (input : Input) :
    (insertModeResolve s input).2 ≠ some (Command.EditorMoveCursor CursorMove.Top) := by
  rcases s with ⟨mode, pending⟩
  rcases input with ⟨k, ctrl⟩
  cases k <;> try (intro hcon; exact Option.noConfusion hcon fun h2 => by cases h2)
  rename_i c
  dsimp only [insertModeResolve]
  apply ite_pred (fun r : ResolverState × Option Command =>
    r.2 ≠ some (Command.EditorMoveCursor CursorMove.Top)) <;>
    (intro hcon; exact Option.noConfusion hcon fun h2 => by cases h2)

/-- `visualModeResolve` never emits the move-to-top command. -/
theorem visualModeResolve_ne_top (s : ResolverState) (input : Input) :
    (visualModeResolve s input).2 ≠ some (Command.EditorMoveCursor CursorMove.Top) := by
  rcases s with ⟨mode, pending⟩
  rcases input with ⟨k, ctrl⟩
  cases k <;> try (intro hcon; exact Option.noConfusion hcon fun h2 => by cases h2)
  rename_i c
  dsimp only [visualModeResolve]
  repeat
    first
    | (intro hcon; exact Option.noConfusion hcon fun h2 => by cases h2)
    | apply ite_pred (fun r : ResolverState × Option Command =>
        r.2 ≠ some (Command.EditorMoveCursor CursorMove.Top))

/-- `operatorModeResolve` never emits the move-to-top command. -/
theorem operatorModeResolve_ne_top (s : ResolverState) (input : Input) (op : Char) :
    (operatorModeResolve s input op).2
      ≠ some (Command.EditorMoveCursor CursorMove.Top) := by
  rcases s with ⟨mode, pending⟩
  rcases input with ⟨k, ctrl⟩
  cases k <;> try (intro hcon; exact Option.noConfusion hcon fun h2 => by cases h2)
  rename_i c
  dsimp only [operatorModeResolve]
  apply ite_pred (fun r : ResolverState × Option Command =>
    r.2 ≠ some (Command.EditorMoveCursor CursorMove.Top))
  · intro hcon
    exact Option.noConfusion hcon fun h2 => by cases h2
  · intro hcon
    rcases Option.some.inj hcon with hcmd
    revert hcmd
    apply ite_pred (fun cmd : Command =>
      ¬cmd = Command.EditorMoveCursor CursorMove.Top) <;> (intro h2; cases h2)

/-- The mode dispatch never emits the move-to-top command. -/
theorem resolveByMode_ne_top (s : ResolverState) (input : Input) :
    (resolveByMode s input).2 ≠ some (Command.EditorMoveCursor CursorMove.Top) := by
  rcases hm : s.editorMode with _ | _ | _ | op <;>
    rw [resolveByMode, hm]
  · exact normalModeResolve_ne_top s input
  · exact insertModeResolve_ne_top s input
  · exact visualModeResolve_ne_top s input
  · exact operatorModeResolve_ne_top s input op

/-- C3 counterexample: in Normal mode with a pending `g`, the key `j`
(neither the matching `g` completion nor an operator motion) discards
the pending buffer but resolves to the Normal-mode command for `j`
(cursor down), not to a no-op as the claim states. -/
theorem pending_discard_counterexample :
    (resolveSeq ResolverState.new [⟨Key.Char 'g', false⟩, ⟨Key.Char 'j', false⟩]).2
      = [some Command.NoOp, some (Command.EditorMoveCursor CursorMove.Down)]
    ∧ (resolveSeq ResolverState.new
        [⟨Key.Char 'g', false⟩, ⟨Key.Char 'j', false⟩]).2.get? 1
      = some (some (Command.EditorMoveCursor CursorMove.Down))
    ∧ some (some (Command.EditorMoveCursor CursorMove.Down))
      ≠ some (some Command.NoOp)
    ∧ (resolveSeq ResolverState.new
        [⟨Key.Char 'g', false⟩, ⟨Key.Char 'j', false⟩]).1.editorPendingInput
      = none := by
  refine ⟨rfl, rfl, ?_, rfl⟩
  intro hcon
  injection hcon with h1
  injection h1 with h2
  cases h2

/-- C3 amended: (1) two consecutive `g` presses without CTRL resolve to
the move-to-top command from every mode, clearing the buffer; (2) the
move-to-top command is resolved only in that configuration — a pending
`g` without CTRL followed by a `g` press without CTRL; (3) after any
non-`Null` key event the pending buffer is empty or holds exactly that
key event, so a pending keystroke never survives more than one
subsequent non-`Null` key event; a key that completes no two-key
sequence discards the buffer and is resolved by the current mode's key
table (rather than as a forced no-op). -/
theorem gg_resolution_and_pending_lifetime :
    (∀ (mode : Mode) (p input : Input), p.key = Key.Char 'g' → p.ctrl = false →
      input.key = Key.Char 'g' → input.ctrl = false →
      map_query_editor_key ⟨mode, some p⟩ input
        = (⟨mode, none⟩, some (Command.EditorMoveCursor CursorMove.Top)))
    ∧ (∀ (s : ResolverState) (input : Input),
        (map_query_editor_key s input).2
          = some (Command.EditorMoveCursor CursorMove.Top) →
        (∃ p, s.editorPendingInput = some p ∧ p.key = Key.Char 'g' ∧ p.ctrl = false)
        ∧ input.key = Key.Char 'g' ∧ input.ctrl = false)
    ∧ (∀ (s : ResolverState) (input : Input), input.key ≠ Key.Null →
        (map_query_editor_key s input).1.editorPendingInput = none
        ∨ (map_query_editor_key s input).1.editorPendingInput = some input) := by
  refine ⟨?_, ?_, ?_⟩
  · intro mode p input hpk hpc hik hic
    rcases p with ⟨pk, pc⟩
    rcases input with ⟨ik, ic⟩
    dsimp at hpk hpc hik hic
    subst hpk
    subst hpc
    subst hik
    subst hic
    rfl
  · intro s input h
    rw [map_query_editor_key] at h
    by_cases hnull : input.key = Key.Null
    · rw [if_pos hnull] at h
      exact absurd h (by simp)
    · rw [if_neg hnull] at h
      cases hsp : s.editorPendingInput with
      | none =>
        rw [hsp] at h
        exact absurd h (resolveByMode_ne_top s input)
      | some p =>
        rw [hsp] at h
        dsimp only at h
        by_cases hgg : (p.key = Key.Char 'g' ∧ p.ctrl = false
            ∧ input.key = Key.Char 'g' ∧ input.ctrl = false)
        · exact ⟨⟨p, rfl, hgg.1, hgg.2.1⟩, hgg.2.2.1, hgg.2.2.2⟩
        · rw [if_neg hgg] at h
          cases hop : opCharOf p.key with
          | some op =>
            rw [hop] at h
            dsimp only at h
            by_cases hik : input.key = Key.Char op
            · rw [if_pos hik] at h
              dsimp only at h
              refine absurd h ?_
              apply ite_pred (fun cmd : Option Command =>
                ¬cmd = some (Command.EditorMoveCursor CursorMove.Top))
              · intro h2
                cases h2
              · apply ite_pred (fun cmd : Option Command =>
                  ¬cmd = some (Command.EditorMoveCursor CursorMove.Top))
                · intro h2
                  cases h2
                · intro h2
                  cases h2
            · rw [if_neg hik] at h
              by_cases hmot : isPendingMotionKey input.key
              · rw [if_pos hmot] at h
                exact absurd h (by simp)
              · rw [if_neg hmot] at h
                exact absurd h (resolveByMode_ne_top _ input)
          | none =>
            rw [hop] at h
            exact absurd h (resolveByMode_ne_top _ input)
  · intro s input hnull
    rw [map_query_editor_key, if_neg hnull]
    cases hsp : s.editorPendingInput with
    | none =>
      rcases resolveByMode_pending s input with h | h
      · rw [hsp] at h
        exact Or.inl h
      · exact Or.inr h
    | some p =>
      dsimp only
      by_cases hgg : (p.key = Key.Char 'g' ∧ p.ctrl = false
          ∧ input.key = Key.Char 'g' ∧ input.ctrl = false)
      · rw [if_pos hgg]
        exact Or.inl rfl
      · rw [if_neg hgg]
        cases hop : opCharOf p.key with
        | some op =>
          dsimp only
          by_cases hik : input.key = Key.Char op
          · rw [if_pos hik]
            exact Or.inl rfl
          · rw [if_neg hik]
            by_cases hmot : isPendingMotionKey input.key
            · rw [if_pos hmot]
              exact Or.inr rfl
            · rw [if_neg hmot]
              rcases resolveByMode_pending
                  ⟨s.editorMode, none⟩ input with h | h
              · exact Or.inl h
              · exact Or.inr h
        | none =>
          rcases resolveByMode_pending ⟨s.editorMode, none⟩ input with h | h
          · exact Or.inl h
          · exact Or.inr h

/-- Witness for the amended C3: evaluating part (1) at Normal mode with a
concrete pending `g` and a concrete second `g`. -/
theorem gg_resolution_witness :
    map_query_editor_key ⟨Mode.Normal, some ⟨Key.Char 'g', false⟩⟩ ⟨Key.Char 'g', false⟩
      = (⟨Mode.Normal, none⟩, some (Command.EditorMoveCursor CursorMove.Top)) :=
  gg_resolution_and_pending_lifetime.1 Mode.Normal ⟨Key.Char 'g', false⟩
    ⟨Key.Char 'g', false⟩ rfl rfl rfl rfl

/-! ## C5 — the pagination invariant -/

/-- C5: for a non-empty result set with a positive page size,
`total_pages = max(1, ceil(rowCount / pageSize))`; the invariant
`current_page ≤ total_pages - 1` is preserved by `next_page`,
`previous_page` and `jump_to_absolute_row`; `next_page` on the last page
and `previous_page` on page 0 are no-ops; every fresh load resets the
page to 0, which is in range; and row navigation never touches the
page. -/
theorem pagination_invariant (t : DataTable) (hps : 0 < t.page_size)
    (hne : t.rows ≠ []) (hinv : t.current_page ≤ t.total_pages - 1) :
    (∀ u : DataTable, 0 < u.page_size →
      u.total_pages = max 1 ((u.rows.length + u.page_size - 1) / u.page_size))
    ∧ t.next_page.current_page ≤ t.next_page.total_pages - 1
    ∧ t.previous_page.current_page ≤ t.previous_page.total_pages - 1
    ∧ (∀ r, (t.jump_to_absolute_row r).current_page
        ≤ (t.jump_to_absolute_row r).total_pages - 1)
    ∧ (t.current_page = t.total_pages - 1 → t.next_page = t)
    ∧ (t.current_page = 0 → t.previous_page = t)
    ∧ (∀ headers rows e q, (t.finish_loading headers rows e q).current_page
        ≤ (t.finish_loading headers rows e q).total_pages - 1)
    ∧ t.next_row.current_page = t.current_page
    ∧ t.previous_row.current_page = t.current_page := by
  have hE : t.rows.isEmpty = false := by
    simp [List.isEmpty_iff, hne]
  have hlen : 1 ≤ t.rows.length := List.length_pos.mpr hne
  have harith : t.rows.length + t.page_size - 1 = t.rows.length - 1 + t.page_size := by
    omega
  have htp : t.total_pages = (t.rows.length - 1) / t.page_size + 1 := by
    rw [DataTable.total_pages, if_neg (by simp [hE]), harith, Nat.add_div_right _ hps]
  refine ⟨?_, ?_, ?_, ?_, ?_, ?_, ?_, ?_, ?_⟩
  · intro u hups
    by_cases hu : u.rows.isEmpty
    · rw [DataTable.total_pages, if_pos hu]
      have h0 : u.rows.length = 0 := by
        simpa [List.isEmpty_iff, List.length_eq_zero] using hu
      rw [h0, Nat.zero_add, Nat.div_eq_of_lt (by omega)]
      exact (max_eq_left (Nat.zero_le 1)).symm
    · have hulen : 1 ≤ u.rows.length := by
        have : u.rows ≠ [] := by
          simpa [List.isEmpty_iff] using hu
        exact List.length_pos.mpr this
      have huarith : u.rows.length + u.page_size - 1
          = u.rows.length - 1 + u.page_size := by
        omega
      rw [DataTable.total_pages, if_neg (by simp [hu]), huarith,
        Nat.add_div_right _ hups]
      exact (max_eq_right (Nat.succ_le_succ (Nat.zero_le _))).symm
  · by_cases h : t.current_page < t.total_pages - 1
    · have heq : t.next_page.current_page = t.current_page + 1 := by
        rw [DataTable.next_page, if_pos h]
      have heq2 : t.next_page.total_pages = t.total_pages := by
        rw [DataTable.next_page, if_pos h]
        rfl
      rw [heq, heq2]
      omega
    · rw [DataTable.next_page, if_neg h]
      exact hinv
  · by_cases h : t.current_page > 0
    · have heq : t.previous_page.current_page = t.current_page - 1 := by
        rw [DataTable.previous_page, if_pos h]
      have heq2 : t.previous_page.total_pages = t.total_pages := by
        rw [DataTable.previous_page, if_pos h]
        rfl
      rw [heq, heq2]
      omega
    · rw [DataTable.previous_page, if_neg h]
      exact hinv
  · intro r
    have heq : (t.jump_to_absolute_row r).current_page
        = min r (t.rows.length - 1) / t.page_size := by
      rw [DataTable.jump_to_absolute_row, if_neg (by simp [hE])]
    have heq2 : (t.jump_to_absolute_row r).total_pages = t.total_pages := by
      rw [DataTable.jump_to_absolute_row, if_neg (by simp [hE])]
      rfl
    rw [heq, heq2, htp, Nat.add_sub_cancel]
    exact Nat.div_le_div_right (Nat.min_le_right _ _)
  · intro h
    rw [DataTable.next_page, if_neg (by omega)]
  · intro h
    rw [DataTable.previous_page, if_neg (by omega)]
  · intro headers rows e q
    exact Nat.zero_le _
  · rw [DataTable.next_row]
    split
    · rfl
    · rfl
  · rw [DataTable.previous_row]
    split
    · rfl
    · rfl

/-- Witness for C5 at a concrete one-page table: `next_page` on the last
page and `previous_page` on page 0 are no-ops. -/
theorem pagination_invariant_witness :
    sampleTable.next_page = sampleTable ∧ sampleTable.previous_page = sampleTable :=
  ⟨(pagination_invariant sampleTable (by decide) (by decide) (by decide)).2.2.2.2.1
      (by decide),
   (pagination_invariant sampleTable (by decide) (by decide) (by decide)).2.2.2.2.2.1
      (by decide)⟩

/-! ## C8 — column widths after a fresh result load -/

/-- `get?` of `mapIdx`. -/
theorem get?_mapIdx {α β : Type _} (l : List α) (f : Nat → α → β) (i : Nat) :
    (l.mapIdx f).get? i = (l.get? i).map (f i) := by
  rcases lt_or_ge i l.length with h | h
  · rw [List.get?_eq_get h,
      List.get?_eq_get (show i < (l.mapIdx f).length by simpa using h)]
    simp [List.get_mapIdx]
  · rw [List.get?_eq_none.mpr (by simpa using h), List.get?_eq_none.mpr h]
    rfl

/-- Column `i` of the width-sampling fold: the fold acts pointwise. -/
theorem widthStep_foldl_get? (rows : List (List String)) (ws : List Nat) (i : Nat) :
    (rows.foldl (fun ws row => widthStep row ws) ws).get? i
      = (ws.get? i).map fun w =>
          rows.foldl
            (fun a row => max a (u16cast (displayWidth (get_value_as_string row i)))) w := by
  induction rows generalizing ws with
  | nil => simp
  | cons r rest ih =>
    rw [List.foldl_cons, ih, widthStep, get?_mapIdx]
    cases hw : ws.get? i
    · rfl
    · simp

/-- With all sampled widths below the `u16` range, the truncating fold
equals the plain fold, and its value stays below the range. -/
theorem foldl_width_nocast (l : List (List String)) (i : Nat) (a : Nat)
    (ha : a ≤ 65533)
    (hc : ∀ row ∈ l, displayWidth (get_value_as_string row i) ≤ 65533) :
    l.foldl (fun a row => max a (u16cast (displayWidth (get_value_as_string row i)))) a
      = l.foldl (fun a row => max a (displayWidth (get_value_as_string row i))) a
    ∧ l.foldl (fun a row => max a (displayWidth (get_value_as_string row i))) a
      ≤ 65533 := by
  induction l generalizing a with
  | nil => exact ⟨rfl, ha⟩
  | cons r rest ih =>
    have hr : displayWidth (get_value_as_string r i) ≤ 65533 :=
      hc r (List.mem_cons_self r rest)
    have hcast : u16cast (displayWidth (get_value_as_string r i))
        = displayWidth (get_value_as_string r i) :=
      Nat.mod_eq_of_lt (by omega)
    have hmax : max a (displayWidth (get_value_as_string r i)) ≤ 65533 :=
      max_le ha hr
    rcases ih (max a (displayWidth (get_value_as_string r i))) hmax
        (fun row hrow => hc row (List.mem_cons_of_mem r hrow)) with ⟨h1, h2⟩
    refine ⟨?_, ?_⟩
    · rw [List.foldl_cons, List.foldl_cons, hcast, h1]
    · rw [List.foldl_cons]
      exact h2

/-- The width fold never drops below its starting value. -/
theorem le_foldl_width (l : List (List String)) (i : Nat) (a : Nat) :
    a ≤ l.foldl (fun a row => max a (displayWidth (get_value_as_string row i))) a := by
  induction l generalizing a with
  | nil => exact le_refl a
  | cons r rest ih =>
    rw [List.foldl_cons]
    exact le_trans (le_max_left _ _) (ih _)

/-- `take (min length 100)` is `take 100`. -/
theorem take_min_length (rows : List (List String)) :
    rows.take (min rows.length 100) = rows.take 100 := by
  rcases le_total rows.length 100 with h | h
  · rw [min_eq_left h, List.take_length, List.take_of_length_le h]
  · rw [min_eq_right h]

/-- C8: after a fresh result load (before any user adjustment), column
`i`'s computed display width is
`max(header width, max sampled width among the first 100 rows) + 2` with
an absolute floor of 3 (the fold starting from the header width computes
the inner max); consequently it is at least 3 and at least the header's
display width.  The `u16` range hypotheses discharge the `as u16` casts
of the source. -/
theorem column_width_spec (t : DataTable) (headers : List String)
    (rows : List (List String)) (e : Nat) (q : List QueryHistoryEntry)
    (i : Nat) (hdr : String)
    (hh : headers.get? i = some hdr)
    (hwh : displayWidth hdr ≤ 65533)
    (hwc : ∀ row ∈ rows.take 100, displayWidth (get_value_as_string row i) ≤ 65533) :
    (t.finish_loading headers rows e q).column_widths.get? i
      = some (max ((rows.take 100).foldl
          (fun a row => max a (displayWidth (get_value_as_string row i)))
          (displayWidth hdr) + 2) 3)
    ∧ 3 ≤ max ((rows.take 100).foldl
          (fun a row => max a (displayWidth (get_value_as_string row i)))
          (displayWidth hdr) + 2) 3
    ∧ displayWidth hdr ≤ max ((rows.take 100).foldl
          (fun a row => max a (displayWidth (get_value_as_string row i)))
          (displayWidth hdr) + 2) 3 := by
  have hcast : u16cast (displayWidth hdr) = displayWidth hdr :=
    Nat.mod_eq_of_lt (by omega)
  rcases foldl_width_nocast (rows.take 100) i (displayWidth hdr) hwh hwc with ⟨hf, hb⟩
  have hle : displayWidth hdr
      ≤ (rows.take 100).foldl
        (fun a row => max a (displayWidth (get_value_as_string row i)))
        (displayWidth hdr) :=
    le_foldl_width _ _ _
  refine ⟨?_, le_max_right _ _, le_trans hle (le_trans (Nat.le_add_right _ 2)
    (le_max_left _ _))⟩
  show (calculate_column_widths headers rows).1.get? i = _
  simp only [calculate_column_widths]
  rw [List.get?_map, take_min_length, widthStep_foldl_get?, List.get?_map, hh]
  simp only [Option.map_some']
  rw [hcast, hf]
  have hsat : u16satAdd2
      ((rows.take 100).foldl
        (fun a row => max a (displayWidth (get_value_as_string row i)))
        (displayWidth hdr))
      = (rows.take 100).foldl
          (fun a row => max a (displayWidth (get_value_as_string row i)))
          (displayWidth hdr) + 2 := by
    rw [u16satAdd2, min_eq_left (by omega)]
  rw [hsat]

/-- Witness for C8 at a fresh load of a concrete result set: the `name`
column's width is its header width plus 2. -/
theorem column_width_spec_witness :
    (sampleTable.finish_loading ["id", "name"] [["1", "a"], ["2", "b"], ["3", "c"]]
        0 []).column_widths.get? 1
      = some (max (([["1", "a"], ["2", "b"], ["3", "c"]].take 100).foldl
          (fun a row => max a (displayWidth (get_value_as_string row 1)))
          (displayWidth "name") + 2) 3) :=
  (column_width_spec sampleTable ["id", "name"] [["1", "a"], ["2", "b"], ["3", "c"]]
    0 [] 1 "name" (by decide) (by decide) (by decide)).1

end LazyData
